import Mathlib

/-!
Shallow embedding of `src/place_recommendation_app_v2.py`.

The program is a Streamlit app: given user text it
  1. embeds the text via an OpenAI backend (`get_embedding`, lines 24-34),
  2. searches a FAISS index with k=5 (`main`, line 75),
  3. maps the returned positional indices into the metadata table with
     `metadata.iloc[indices[0]]` (line 78),
  4. converts L2 distances to similarities via `1 - d/2` (line 79),
  5. displays the ranked table (line 83),
  6. geocodes each row (`get_location`, lines 41-64) and, for rows whose
     latitude and longitude are both truthy, normalizes the similarity with
     `(s - min)/(max - min)` (lines 92-105),
  7. renders a map when `locations` is non-empty, otherwise a warning
     (lines 107-176).

External collaborators (OpenAI, FAISS, requests, Google geocoding) are
parameters of the Lean functions.  Python/numpy floats are modelled as `ℚ`;
the single non-finite value the pipeline can produce (the NaN from the 0/0
in line 96, numpy float scalar semantics) is modelled as `none : Option ℚ`.
Python `None` results are `none`; exceptions escaping `main` are modelled as
a trailing `raised` event in the event trace that `main` produces.
-/

/-- One metadata row of `reviews_embeddings.csv` (columns used by the app). -/
structure Row where
  name : String
  address : String
  review_text : String
  deriving DecidableEq

/-- One element of the `locations` list built in lines 98-105.
`similarity` is the normalized similarity; `none` models the NaN produced by
the 0/0 division in line 96 when `max_similarity == min_similarity`. -/
structure LocationEntry where
  name : String
  address : String
  review_text : String
  similarity : Option ℚ
  latitude : ℚ
  longitude : ℚ
  deriving DecidableEq

/-- Exceptions that can escape the body of `main`.
`ConversionError` is the `TypeError` raised by
`np.array(None).astype('float32')` in line 72 when `get_embedding`
returned `None`; `IndexError` is the pandas error when `.iloc` receives an
out-of-range positional index; `EmbeddingError` is the error type the spec
prescribes (it does not occur anywhere in the source). -/
inductive PipelineError where
  | EmbeddingError
  | ConversionError
  | IndexError
  deriving DecidableEq

/-- Observable steps of one run of `main` (line 66-176). -/
inductive Event where
  /-- `index.search(query, k)` was attempted (line 75). -/
  | searchCall (query : List ℚ) (k : Nat)
  /-- `st.dataframe` displayed the ranked rows with their raw similarity (line 83). -/
  | table (rows : List (Row × ℚ))
  /-- `st.components.v1.html` rendered the map over `locs` (line 174). -/
  | mapHtml (locs : List LocationEntry)
  /-- `st.warning` that no location info was available (line 176). -/
  | mapWarning
  /-- `st.error` emitted inside `get_embedding`s `except` branch (line 33). -/
  | stErrorEmbedding
  /-- an exception escaped `main`. -/
  | raised (e : PipelineError)
  deriving DecidableEq

/-- `get_embedding` (lines 24-34): calls the backend and on ANY exception
reports `st.error` and returns `None`.  The backend outcome is the
parameter: `Except.error msg` models `client.embeddings.create` raising. -/
def get_embedding (backend : Except String (List ℚ)) : Option (List ℚ) :=
  match backend with
  | .ok v => some v
  | .error _ => none

/-- numpy scalar division (line 96): `x / 0` is non-finite (NaN for the
0/0 the pipeline reaches), modelled as `none`. -/
def npDiv (a b : ℚ) : Option ℚ := if b = 0 then none else some (a / b)

/-- `pandas.Series.max()` over the `similarity` column (line 89); `none`
for an empty series. -/
def seriesMax : List ℚ → Option ℚ
  | [] => none
  | x :: xs =>
    match seriesMax xs with
    | none => some x
    | some m => some (max x m)

/-- `pandas.Series.min()` over the `similarity` column (line 90). -/
def seriesMin : List ℚ → Option ℚ
  | [] => none
  | x :: xs =>
    match seriesMin xs with
    | none => some x
    | some m => some (min x m)

/-- `metadata.iloc[i]` for a single positional index: negative indices wrap
once from the end (pandas/numpy semantics); out of range is an
`IndexError`, modelled as `none`. -/
def iloc (rows : List Row) (i : Int) : Option Row :=
  let j : Int := if i < 0 then (rows.length : Int) + i else i
  if 0 ≤ j then rows.get? j.toNat else none

/-- `metadata.iloc[indices[0]]` (line 78): every positional index is looked
up; one failure raises `IndexError` for the whole selection. -/
def ilocAll (rows : List Row) : List Int → Option (List Row)
  | [] => some []
  | i :: is =>
    match iloc rows i, ilocAll rows is with
    | some r, some rs => some (r :: rs)
    | _, _ => none

/-- `similarity = 1 - d/2` (line 79). -/
def rawSim (d : ℚ) : ℚ := 1 - d / 2

/-- Python truthiness of an optional float: `None`, and `0.0`, are falsy
(the `if lat and lng:` gate in line 94). -/
def truthy : Option ℚ → Bool
  | none => false
  | some v => v ≠ 0

/-- One iteration of the loop in lines 92-105: geocode the row and, when
both coordinates are truthy, build the location entry with the normalized
similarity `(s - min)/(max - min)` (line 96). -/
def mkEntry (geocode : Row → Option ℚ × Option ℚ) (minS maxS : ℚ)
    (p : Row × ℚ) : Option LocationEntry :=
  let lat := (geocode p.1).1
  let lng := (geocode p.1).2
  if truthy lat && truthy lng then
    some { name := p.1.name, address := p.1.address,
           review_text := p.1.review_text,
           similarity := npDiv (p.2 - minS) (maxS - minS),
           latitude := lat.getD 0, longitude := lng.getD 0 }
  else none

/-- The whole loop of lines 92-105: the `locations` list, in iteration
order. -/
def buildLocations (table : List (Row × ℚ)) (geocode : Row → Option ℚ × Option ℚ)
    (minS maxS : ℚ) : List LocationEntry :=
  table.filterMap (mkEntry geocode minS maxS)

/-- The body of `main` for a non-empty `user_input` (lines 71-176), as the
ordered trace of observable events.  `backend` is the embedding call
outcome, `searchFn` the FAISS index, `metadata` the CSV rows, `geocode`
the result of `get_location` on a row ((None, None) on failure). -/
def mainTrace (backend : Except String (List ℚ))
    (searchFn : List ℚ → Nat → List ℚ × List Int)
    (metadata : List Row)
    (geocode : Row → Option ℚ × Option ℚ) : List Event :=
  match get_embedding backend with
  | none =>
    -- line 72: np.array(None).astype('float32') raises TypeError,
    -- after get_embedding already swallowed the backend error (line 33).
    [Event.stErrorEmbedding, Event.raised PipelineError.ConversionError]
  | some emb =>
    let distances := (searchFn emb 5).1
    let indices := (searchFn emb 5).2
    match ilocAll metadata indices with
    | none => [Event.searchCall emb 5, Event.raised PipelineError.IndexError]
    | some results =>
      let sims := distances.map rawSim
      let table := results.zip sims
      let maxS := (seriesMax sims).getD 0
      let minS := (seriesMin sims).getD 0
      let locations := buildLocations table geocode minS maxS
      Event.searchCall emb 5 :: Event.table table ::
        (if locations.isEmpty then [Event.mapWarning]
         else [Event.mapHtml locations])

/-- The normalization applied to a raw similarity `s` belonging to the
result set `sims` (lines 89, 90, 96 combined). -/
def normalizedIn (sims : List ℚ) (s : ℚ) : Option ℚ :=
  npDiv (s - (seriesMin sims).getD 0) ((seriesMax sims).getD 0 - (seriesMin sims).getD 0)

/-- Spec-side formula (§4.1 step 5): clamp a value to [0, 1].  The source
has no clamping; this definition only serves to compare the code's value
with the spec's clamped formula. -/
def spec_clamp01 (q : ℚ) : ℚ := max 0 (min 1 q)

/-- What one `requests.get` to the geocoding API produced, as far as
`get_location` can observe: an HTTP response with a status field and a
result list, or a `requests.exceptions.RequestException` (also covering
`raise_for_status`). -/
inductive GeoResponse where
  | httpOk (status : String) (results : List (ℚ × ℚ))
  | requestError

/-- Outcome of a `get_location` call: how many HTTP attempts were made,
the `time.sleep` durations between attempts, and the returned value.
`result = none` models Python falling off the `for` loop and returning the
bare `None` (only reachable with `max_retries = 0`); otherwise the function
returns a pair, `(none, none)` standing for `(None, None)`. -/
structure GeoCall where
  attempts : Nat
  sleeps : List Nat
  result : Option (Option ℚ × Option ℚ)
  deriving DecidableEq

/-- The retry loop of `get_location` (lines 43-64).  `backend n` is what
attempt number `n` observes; `remaining` is how many loop iterations are
left (initially `max_retries`). -/
def get_location_go (backend : Nat → GeoResponse) (attempt : Nat) :
    Nat → GeoCall
  | 0 => ⟨0, [], none⟩
  | remaining + 1 =>
    match backend attempt with
    | GeoResponse.httpOk status rs =>
      -- lines 50-57: on any status the function returns inside the try.
      match rs with
      | [] => ⟨1, [], some (none, none)⟩
      | p :: _ =>
        if status = "OK" then ⟨1, [], some (some p.1, some p.2)⟩
        else ⟨1, [], some (none, none)⟩
    | GeoResponse.requestError =>
      -- lines 58-64: retry with a fixed 2-second sleep unless this was
      -- the last attempt.
      if 0 < remaining then
        let rest := get_location_go backend (attempt + 1) remaining
        ⟨rest.attempts + 1, 2 :: rest.sleeps, rest.result⟩
      else ⟨1, [], some (none, none)⟩

/-- `get_location(name, address, max_retries=3)` (lines 41-64), abstracted
over the per-attempt network behaviour. -/
def get_location (backend : Nat → GeoResponse) (max_retries : Nat := 3) :
    GeoCall :=
  get_location_go backend 0 max_retries

/-- Order relation used to express that normalized similarities never
increase along the emitted list: whenever both values are actual numbers
(not NaN), the later one is not larger. -/
def optGE (x y : Option ℚ) : Prop :=
  ∀ a b, x = some a → y = some b → b ≤ a

/-! ### Helper lemmas -/

lemma seriesMax_spec (sims : List ℚ) :
    ∀ s ∈ sims, ∃ m, seriesMax sims = some m ∧ s ≤ m := by
  induction sims with
  | nil => intro s hs; cases hs
  | cons x xs ih =>
    intro s hs
    rcases List.mem_cons.mp hs with h | h
    · subst h
      cases hx : seriesMax xs with
      | none => exact ⟨s, by simp [seriesMax, hx], le_refl s⟩
      | some m => exact ⟨max s m, by simp [seriesMax, hx], le_max_left s m⟩
    · rcases ih s h with ⟨m, hm, hsm⟩
      exact ⟨max x m, by simp [seriesMax, hm], le_trans hsm (le_max_right x m)⟩

lemma seriesMin_spec (sims : List ℚ) :
    ∀ s ∈ sims, ∃ m, seriesMin sims = some m ∧ m ≤ s := by
  induction sims with
  | nil => intro s hs; cases hs
  | cons x xs ih =>
    intro s hs
    rcases List.mem_cons.mp hs with h | h
    · subst h
      cases hx : seriesMin xs with
      | none => exact ⟨s, by simp [seriesMin, hx], le_refl s⟩
      | some m => exact ⟨min s m, by simp [seriesMin, hx], min_le_left s m⟩
    · rcases ih s h with ⟨m, hm, hsm⟩
      exact ⟨min x m, by simp [seriesMin, hm], le_trans (min_le_right x m) hsm⟩

lemma seriesMin_getD_le_seriesMax_getD (sims : List ℚ) :
    (seriesMin sims).getD 0 ≤ (seriesMax sims).getD 0 := by
  cases sims with
  | nil => simp [seriesMin, seriesMax]
  | cons x xs =>
    rcases seriesMin_spec (x :: xs) x (List.mem_cons_self x xs) with ⟨mn, hmn, hmnx⟩
    rcases seriesMax_spec (x :: xs) x (List.mem_cons_self x xs) with ⟨mx, hmx, hxmx⟩
    rw [hmn, hmx]
    exact le_trans hmnx hxmx

lemma zip_snd_sublist {α β : Type} (rs : List α) (ss : List β) :
    ((rs.zip ss).map Prod.snd).Sublist ss := by
  induction rs generalizing ss with
  | nil => simp
  | cons r rs ih =>
    cases ss with
    | nil => simp
    | cons s ss => simpa using (ih ss).cons₂ s

lemma map_filterMap_sublist {α β γ : Type} (f : α → Option β) (g : β → γ)
    (h : α → γ) (hf : ∀ x y, f x = some y → g y = h x) (l : List α) :
    ((l.filterMap f).map g).Sublist (l.map h) := by
  induction l with
  | nil => simp
  | cons x xs ih =>
    cases hx : f x with
    | none => simpa [List.filterMap_cons, hx] using ih.cons (h x)
    | some y =>
      have : g y = h x := hf x y hx
      simpa [List.filterMap_cons, hx, this] using ih.cons₂ (h x)

lemma optGE_npDiv (mn mx s t : ℚ) (hmn : mn ≤ mx) (hst : t ≤ s) :
    optGE (npDiv (s - mn) (mx - mn)) (npDiv (t - mn) (mx - mn)) := by
  intro a b ha hb
  by_cases hD : mx - mn = 0
  · simp [npDiv, hD] at ha
  · have hpos : 0 < mx - mn := lt_of_le_of_ne (by linarith) (Ne.symm hD)
    simp only [npDiv, if_neg hD, Option.some.injEq] at ha hb
    subst ha; subst hb
    gcongr

lemma mkEntry_similarity (geocode : Row → Option ℚ × Option ℚ) (minS maxS : ℚ)
    (p : Row × ℚ) (e : LocationEntry) (h : mkEntry geocode minS maxS p = some e) :
    e.similarity = npDiv (p.2 - minS) (maxS - minS) := by
  unfold mkEntry at h
  by_cases hc : (truthy (geocode p.1).1 && truthy (geocode p.1).2) = true
  · simp only [hc, if_true, Option.some.injEq] at h
    subst h; rfl
  · simp [hc] at h

lemma mkEntry_fields (geocode : Row → Option ℚ × Option ℚ) (minS maxS : ℚ)
    (p : Row × ℚ) (e : LocationEntry) (h : mkEntry geocode minS maxS p = some e) :
    (e.name, e.address, e.review_text) = (p.1.name, p.1.address, p.1.review_text) := by
  unfold mkEntry at h
  by_cases hc : (truthy (geocode p.1).1 && truthy (geocode p.1).2) = true
  · simp only [hc, if_true, Option.some.injEq] at h
    subst h; rfl
  · simp [hc] at h

lemma buildLocations_nil_of_fail (table : List (Row × ℚ))
    (geocode : Row → Option ℚ × Option ℚ) (minS maxS : ℚ)
    (hfail : ∀ r, geocode r = (none, none)) :
    buildLocations table geocode minS maxS = [] := by
  unfold buildLocations
  induction table with
  | nil => rfl
  | cons p ps ih =>
    rw [List.filterMap_cons]
    have : mkEntry geocode minS maxS p = none := by
      unfold mkEntry
      rw [hfail p.1]
      simp [truthy]
    rw [this, ih]

lemma get_location_go_spec (backend : Nat → GeoResponse) :
    ∀ remaining, 0 < remaining → ∀ attempt,
      (get_location_go backend attempt remaining).attempts ≤ remaining ∧
      (get_location_go backend attempt remaining).attempts =
        (get_location_go backend attempt remaining).sleeps.length + 1 ∧
      (∀ d ∈ (get_location_go backend attempt remaining).sleeps, d = 2) ∧
      ∃ p, (get_location_go backend attempt remaining).result = some p := by
  intro remaining
  induction remaining with
  | zero => intro h; cases h
  | succ n ih =>
    intro _ attempt
    cases hb : backend attempt with
    | httpOk status rs =>
      cases rs with
      | nil => simp [get_location_go, hb]
      | cons p ps =>
        by_cases hst : status = "OK" <;> simp [get_location_go, hb, hst]
    | requestError =>
      by_cases hn : 0 < n
      · obtain ⟨h1, h2, h3, ⟨p, h4⟩⟩ := ih hn (attempt + 1)
        simp only [get_location_go, hb, if_pos hn, List.length_cons]
        refine ⟨by omega, by omega, ?_, ⟨p, h4⟩⟩
        intro d hd
        rcases List.mem_cons.mp hd with h | h
        · exact h
        · exact h3 d h
      · have hn0 : n = 0 := by omega
        subst hn0
        simp [get_location_go, hb]

/-! ### Claim theorems -/

/-- C1: the claim says that when all raw similarities are equal the
normalized similarity of every entry is a defined constant, with no
division by zero and no NaN.  The code has no such guard: at the failing
input (five results all at L2 distance 1, every geocode succeeding) line
96 computes `(0.5 - 0.5) / (0.5 - 0.5) = 0/0`, a NaN (modelled `none`)
for every emitted entry — no entry carries a defined constant. -/
theorem C1_degenerate_bug :
    mainTrace (.ok [1]) (fun _ _ => ([1, 1, 1, 1, 1], [0, 0, 0, 0, 0]))
        [⟨"P", "A", "R"⟩] (fun _ => (some 1, some 1)) =
      [Event.searchCall [1] 5,
       Event.table [(⟨"P", "A", "R"⟩, 1/2), (⟨"P", "A", "R"⟩, 1/2),
                    (⟨"P", "A", "R"⟩, 1/2), (⟨"P", "A", "R"⟩, 1/2),
                    (⟨"P", "A", "R"⟩, 1/2)],
       Event.mapHtml [⟨"P", "A", "R", none, 1, 1⟩, ⟨"P", "A", "R", none, 1, 1⟩,
                      ⟨"P", "A", "R", none, 1, 1⟩, ⟨"P", "A", "R", none, 1, 1⟩,
                      ⟨"P", "A", "R", none, 1, 1⟩]] ∧
    normalizedIn (List.map rawSim [1, 1, 1, 1, 1]) (rawSim 1) = none := by
  refine ⟨?_, ?_⟩ <;> norm_num [mainTrace, get_embedding, ilocAll, iloc, buildLocations, mkEntry, truthy, seriesMax, seriesMin, rawSim, npDiv, normalizedIn, List.filterMap_cons, List.get?]

/-- C2 counterexample: with an erroring embedding backend the run produces
`st.error` inside `get_embedding` (the error is swallowed, `None` is
returned) and then raises the numpy conversion `TypeError`; the trace
contains no `EmbeddingError` and no index-search call. -/
theorem C2_counterexample :
    mainTrace (.error "boom") (fun _ _ => ([], [])) [] (fun _ => (none, none)) =
      [Event.stErrorEmbedding, Event.raised PipelineError.ConversionError] ∧
    get_embedding (Except.error "boom") = none := by
  constructor
  · rfl
  · rfl

/-- C2 amended: for every erroring embedding backend, `get_embedding`
swallows the exception and returns `None`; `main` then raises the
conversion `TypeError` — never an `EmbeddingError` — and no index search
is attempted. -/
theorem C2_amended_thm (err : String)
    (searchFn : List ℚ → Nat → List ℚ × List Int)
    (metadata : List Row) (geocode : Row → Option ℚ × Option ℚ) :
    get_embedding (.error err) = none ∧
    mainTrace (.error err) searchFn metadata geocode =
      [Event.stErrorEmbedding, Event.raised PipelineError.ConversionError] ∧
    (∀ q k, Event.searchCall q k ∉ mainTrace (.error err) searchFn metadata geocode) ∧
    Event.raised PipelineError.EmbeddingError ∉
      mainTrace (.error err) searchFn metadata geocode := by
  refine ⟨rfl, rfl, ?_, ?_⟩
  · intro q k
    simp [mainTrace, get_embedding]
  · simp [mainTrace, get_embedding]

/-- C3 counterexample: in the degenerate (all-equal) case the emitted
normalized similarity is the NaN from `0/0` (modelled `none`), hence not a
rational number in [0, 1]: the claim fails for this result set. -/
theorem C3_counterexample :
    mainTrace (.ok [2]) (fun _ _ => ([1, 1], [0, 0])) [⟨"Q", "B", "S"⟩]
        (fun _ => (some 2, some 3)) =
      [Event.searchCall [2] 5,
       Event.table [(⟨"Q", "B", "S"⟩, 1/2), (⟨"Q", "B", "S"⟩, 1/2)],
       Event.mapHtml [⟨"Q", "B", "S", none, 2, 3⟩, ⟨"Q", "B", "S", none, 2, 3⟩]] ∧
    normalizedIn (List.map rawSim [1, 1]) (rawSim 1) = none := by
  refine ⟨?_, ?_⟩ <;> norm_num [mainTrace, get_embedding, ilocAll, iloc, buildLocations, mkEntry, truthy, seriesMax, seriesMin, rawSim, npDiv, normalizedIn, List.filterMap_cons, List.get?]

/-- C3 amended: in the non-degenerate case (`min_similarity ≠
max_similarity`) every entry's normalized similarity is a defined rational
in [0, 1] and equals the formula `(raw - min)/(max - min)`, which
coincides with its clamped value (the source never clamps, and no
clamping is needed). -/
theorem C3_amended_thm (sims : List ℚ) (s : ℚ) (hs : s ∈ sims)
    (hnd : (seriesMin sims).getD 0 ≠ (seriesMax sims).getD 0) :
    ∃ v, normalizedIn sims s = some v ∧ 0 ≤ v ∧ v ≤ 1 ∧
      v = spec_clamp01 ((s - (seriesMin sims).getD 0) /
        ((seriesMax sims).getD 0 - (seriesMin sims).getD 0)) := by
  obtain ⟨mn, hmn, hmns⟩ := seriesMin_spec sims s hs
  obtain ⟨mx, hmx, hsmx⟩ := seriesMax_spec sims s hs
  rw [hmn, hmx] at hnd ⊢
  simp only [Option.getD_some] at hnd ⊢
  have hlt : mn < mx := lt_of_le_of_ne (le_trans hmns hsmx) hnd
  have hD : mx - mn ≠ 0 := by linarith
  refine ⟨(s - mn) / (mx - mn), ?_, ?_, ?_, ?_⟩
  · simp [normalizedIn, npDiv, hmn, hmx, hD]
  · apply div_nonneg <;> linarith
  · rw [div_le_one (by linarith)]
    linarith
  · have h0 : 0 ≤ (s - mn) / (mx - mn) := by
      apply div_nonneg <;> linarith
    have h1 : (s - mn) / (mx - mn) ≤ 1 := by
      rw [div_le_one (by linarith)]
      linarith
    simp [spec_clamp01, min_eq_right h1, max_eq_right h0]

/-- C3 witness: the amended theorem at the concrete result set
`sims = [0, 1]`, entry `s = 0`. -/
theorem C3_witness :
    ∃ v, normalizedIn [(0 : ℚ), 1] 0 = some v ∧ 0 ≤ v ∧ v ≤ 1 ∧
      v = spec_clamp01 ((0 - (seriesMin [(0 : ℚ), 1]).getD 0) /
        ((seriesMax [(0 : ℚ), 1]).getD 0 - (seriesMin [(0 : ℚ), 1]).getD 0)) :=
  C3_amended_thm [0, 1] 0 (by decide) (by decide)

/-- C5: within one result set, normalization is monotone: a strictly
larger raw similarity yields a normalized similarity that is at least as
large (both are defined, since two distinct raw values rule out the
degenerate case). -/
theorem C5_monotone_thm (sims : List ℚ) (a b : ℚ) (ha : a ∈ sims)
    (hb : b ∈ sims) (hab : b < a) :
    ∃ na nb, normalizedIn sims a = some na ∧ normalizedIn sims b = some nb ∧
      nb ≤ na := by
  obtain ⟨mn, hmn, hmnb⟩ := seriesMin_spec sims b hb
  obtain ⟨mx, hmx, hamx⟩ := seriesMax_spec sims a ha
  obtain ⟨mn2, hmn2, hmn2a⟩ := seriesMin_spec sims a ha
  obtain ⟨mx2, hmx2, hbmx2⟩ := seriesMax_spec sims b hb
  rw [hmn2] at hmn; cases hmn
  rw [hmx2] at hmx; cases hmx
  have hlt : mn < mx := lt_of_le_of_lt hmnb (lt_of_lt_of_le hab hamx)
  have hD : mx - mn ≠ 0 := by linarith
  refine ⟨(a - mn) / (mx - mn), (b - mn) / (mx - mn), ?_, ?_, ?_⟩
  · simp [normalizedIn, npDiv, hmn2, hmx2, hD]
  · simp [normalizedIn, npDiv, hmn2, hmx2, hD]
  · gcongr
    linarith

/-- C5 witness: the monotonicity theorem at `sims = [0, 1]`, `a = 1`,
`b = 0`. -/
theorem C5_witness :
    ∃ na nb, normalizedIn [(0 : ℚ), 1] 1 = some na ∧
      normalizedIn [(0 : ℚ), 1] 0 = some nb ∧ nb ≤ na :=
  C5_monotone_thm [0, 1] 1 0 (by decide) (by decide) (by decide)

/-- C6: the distance-to-similarity conversion `1 - d/2` maps 0 to 1, 1 to
0.5 and 2 to 0; and on the k=5 fixture distances {0, 0.4, 0.8, 1.2, 2.0}
the full pipeline emits raw similarities {1.0, 0.8, 0.6, 0.4, 0.0} in the
displayed table and normalized similarities {1.0, 0.8, 0.6, 0.4, 0.0} on
the map, in the original nearest-first order. -/
theorem C6_fixture_thm :
    rawSim 0 = 1 ∧ rawSim 1 = 1/2 ∧ rawSim 2 = 0 ∧
    mainTrace (.ok [1]) (fun _ _ => ([0, 2/5, 4/5, 6/5, 2], [0, 1, 2, 3, 4]))
        [⟨"P0", "A0", "R0"⟩, ⟨"P1", "A1", "R1"⟩, ⟨"P2", "A2", "R2"⟩,
         ⟨"P3", "A3", "R3"⟩, ⟨"P4", "A4", "R4"⟩]
        (fun _ => (some 1, some 1)) =
      [Event.searchCall [1] 5,
       Event.table [(⟨"P0", "A0", "R0"⟩, 1), (⟨"P1", "A1", "R1"⟩, 4/5),
                    (⟨"P2", "A2", "R2"⟩, 3/5), (⟨"P3", "A3", "R3"⟩, 2/5),
                    (⟨"P4", "A4", "R4"⟩, 0)],
       Event.mapHtml [⟨"P0", "A0", "R0", some 1, 1, 1⟩,
                      ⟨"P1", "A1", "R1", some (4/5), 1, 1⟩,
                      ⟨"P2", "A2", "R2", some (3/5), 1, 1⟩,
                      ⟨"P3", "A3", "R3", some (2/5), 1, 1⟩,
                      ⟨"P4", "A4", "R4", some 0, 1, 1⟩]] := by
  refine ⟨by norm_num [rawSim], by norm_num [rawSim], by norm_num [rawSim], ?_⟩
  norm_num [mainTrace, get_embedding, ilocAll, iloc, buildLocations, mkEntry,
    truthy, seriesMax, seriesMin, rawSim, npDiv, List.filterMap_cons, List.get?]

/-- C7: the claim says that when k exceeds the index size the pipeline
returns fewer than k results, filtering out the padded entries.  The code
has no such filter: at the failing input (3 stored vectors, k=5, FAISS
padding the missing slots with index -1 and distance 3.4028235e38) the
pandas `iloc[-1]` lookup silently maps each padding index to the LAST
metadata row, and the displayed table has 5 entries, the bogus padded
rows included. -/
theorem C7_padding_bug :
    mainTrace (.ok [1])
        (fun _ _ => ([0, 2/5, 4/5,
                      340282350000000000000000000000000000000,
                      340282350000000000000000000000000000000],
                     [0, 1, 2, -1, -1]))
        [⟨"P0", "A0", "R0"⟩, ⟨"P1", "A1", "R1"⟩, ⟨"P2", "A2", "R2"⟩]
        (fun _ => (none, none)) =
      [Event.searchCall [1] 5,
       Event.table [(⟨"P0", "A0", "R0"⟩, 1), (⟨"P1", "A1", "R1"⟩, 4/5),
                    (⟨"P2", "A2", "R2"⟩, 3/5),
                    (⟨"P2", "A2", "R2"⟩, 1 - 340282350000000000000000000000000000000/2),
                    (⟨"P2", "A2", "R2"⟩, 1 - 340282350000000000000000000000000000000/2)],
       Event.mapWarning] := by
  norm_num [mainTrace, get_embedding, ilocAll, iloc, buildLocations, mkEntry,
    truthy, seriesMax, seriesMin, rawSim, npDiv, List.filterMap_cons, List.get?]

lemma get_location_go_result_shape (backend : Nat → GeoResponse) :
    ∀ remaining attempt p,
      (get_location_go backend attempt remaining).result = some p →
      p = (none, none) ∨ ∃ la ln, p = (some la, some ln) := by
  intro remaining
  induction remaining with
  | zero => intro attempt p h; simp [get_location_go] at h
  | succ n ih =>
    intro attempt p h
    cases hb : backend attempt with
    | httpOk status rs =>
      cases rs with
      | nil =>
        simp [get_location_go, hb] at h
        exact Or.inl h.symm
      | cons q qs =>
        by_cases hst : status = "OK"
        · simp [get_location_go, hb, hst] at h
          exact Or.inr ⟨q.1, q.2, h.symm⟩
        · simp [get_location_go, hb, hst] at h
          exact Or.inl h.symm
    | requestError =>
      by_cases hn : 0 < n
      · simp only [get_location_go, hb, if_pos hn] at h
        exact ih (attempt + 1) p h
      · have hn0 : n = 0 := by omega
        subst hn0
        simp [get_location_go, hb] at h
        exact Or.inl h.symm

/-- C9: for every network behaviour, `get_location` with its default
`max_retries = 3` makes at most 3 HTTP attempts, sleeps a fixed 2 seconds
between consecutive attempts (one sleep fewer than attempts), and always
returns — and what it returns is either a coordinate pair or
`(None, None)`. -/
theorem C9_bounded_retry_thm (backend : Nat → GeoResponse) :
    (get_location backend).attempts ≤ 3 ∧
    (get_location backend).attempts = (get_location backend).sleeps.length + 1 ∧
    (∀ d ∈ (get_location backend).sleeps, d = 2) ∧
    (∃ p, (get_location backend).result = some p) ∧
    ∀ p, (get_location backend).result = some p →
      p = (none, none) ∨ ∃ la ln, p = (some la, some ln) := by
  obtain ⟨h1, h2, h3, h4⟩ := get_location_go_spec backend 3 (by omega) 0
  exact ⟨h1, h2, h3, h4, fun p hp => get_location_go_result_shape backend 3 0 p hp⟩

/-- C10: a geocode result whose latitude or longitude equals 0 is excluded
from the map's `locations` list exactly as a failed geocode is, because
line 94 gates inclusion on Python truthiness of both coordinates. -/
theorem C10_truthiness_thm (row : Row) (s minS maxS lat lng : ℚ) :
    buildLocations [(row, s)] (fun _ => (some 0, some lng)) minS maxS = [] ∧
    buildLocations [(row, s)] (fun _ => (some lat, some 0)) minS maxS = [] ∧
    buildLocations [(row, s)] (fun _ => (none, none)) minS maxS = [] ∧
    mkEntry (fun _ => (some 0, some lng)) minS maxS (row, s) =
      mkEntry (fun _ => (none, none)) minS maxS (row, s) := by
  refine ⟨?_, ?_, ?_, ?_⟩ <;>
    simp [buildLocations, mkEntry, truthy, List.filterMap_cons]

/-- C4: assuming the index returns distances in non-decreasing order
(nearest first, the FAISS contract), the converted raw similarities are
non-increasing, the displayed table lists the result rows in exactly that
order, and any emitted map list is an order-preserving sublist of the
table (rows are only dropped by the geocode gate, never reordered) whose
normalized similarities are non-increasing wherever defined — the
pipeline never re-sorts by normalized similarity. -/
theorem C4_order_thm (emb : List ℚ) (distances : List ℚ) (indices : List Int)
    (metadata results : List Row) (geocode : Row → Option ℚ × Option ℚ)
    (hr : ilocAll metadata indices = some results)
    (hsorted : distances.Pairwise (· ≤ ·)) :
    (distances.map rawSim).Pairwise (· ≥ ·) ∧
    Event.table (results.zip (distances.map rawSim)) ∈
      mainTrace (.ok emb) (fun _ _ => (distances, indices)) metadata geocode ∧
    ∀ locs, Event.mapHtml locs ∈
        mainTrace (.ok emb) (fun _ _ => (distances, indices)) metadata geocode →
      (locs.map fun e => (e.name, e.address, e.review_text)).Sublist
        ((results.zip (distances.map rawSim)).map
          fun p => (p.1.name, p.1.address, p.1.review_text)) ∧
      (locs.map fun e => e.similarity).Pairwise optGE := by
  have hsims : (distances.map rawSim).Pairwise (· ≥ ·) :=
    List.Pairwise.map rawSim
      (fun a b hab => by simp only [rawSim, ge_iff_le]; linarith) hsorted
  have htrace : mainTrace (.ok emb) (fun _ _ => (distances, indices)) metadata geocode =
      Event.searchCall emb 5 ::
      Event.table (results.zip (distances.map rawSim)) ::
      (if (buildLocations (results.zip (distances.map rawSim)) geocode
            ((seriesMin (distances.map rawSim)).getD 0)
            ((seriesMax (distances.map rawSim)).getD 0)).isEmpty
       then [Event.mapWarning]
       else [Event.mapHtml (buildLocations (results.zip (distances.map rawSim)) geocode
            ((seriesMin (distances.map rawSim)).getD 0)
            ((seriesMax (distances.map rawSim)).getD 0))]) := by
    simp [mainTrace, get_embedding, hr]
  refine ⟨hsims, ?_, ?_⟩
  · rw [htrace]
    by_cases hE : (buildLocations (results.zip (distances.map rawSim)) geocode
        ((seriesMin (distances.map rawSim)).getD 0)
        ((seriesMax (distances.map rawSim)).getD 0)).isEmpty <;>
      simp [hE]
  · intro locs hmem
    rw [htrace] at hmem
    by_cases hE : (buildLocations (results.zip (distances.map rawSim)) geocode
        ((seriesMin (distances.map rawSim)).getD 0)
        ((seriesMax (distances.map rawSim)).getD 0)).isEmpty
    · simp [hE] at hmem
    · rw [if_neg hE] at hmem
      simp only [List.mem_cons, List.mem_singleton, List.not_mem_nil, or_false] at hmem
      rcases hmem with h | h | h
      · simp at h
      · simp at h
      · have hlocs : locs = buildLocations (results.zip (distances.map rawSim)) geocode
            ((seriesMin (distances.map rawSim)).getD 0)
            ((seriesMax (distances.map rawSim)).getD 0) := by
          injection h
        subst hlocs
        constructor
        · exact map_filterMap_sublist _ _ _
            (mkEntry_fields geocode _ _) (results.zip (distances.map rawSim))
        · have hbig : ((results.zip (distances.map rawSim)).map
              (fun p => npDiv (p.2 - (seriesMin (distances.map rawSim)).getD 0)
                ((seriesMax (distances.map rawSim)).getD 0 -
                 (seriesMin (distances.map rawSim)).getD 0))).Pairwise optGE := by
            rw [show (fun p : Row × ℚ => npDiv (p.2 - (seriesMin (distances.map rawSim)).getD 0)
                ((seriesMax (distances.map rawSim)).getD 0 -
                 (seriesMin (distances.map rawSim)).getD 0)) =
                (fun s : ℚ => npDiv (s - (seriesMin (distances.map rawSim)).getD 0)
                ((seriesMax (distances.map rawSim)).getD 0 -
                 (seriesMin (distances.map rawSim)).getD 0)) ∘ Prod.snd from rfl,
              ← List.map_map]
            refine List.Pairwise.map _ ?_
              ((hsims.sublist (zip_snd_sublist results (distances.map rawSim))))
            intro a b hab
            exact optGE_npDiv _ _ a b
              (seriesMin_getD_le_seriesMax_getD (distances.map rawSim)) hab
          exact (hbig.sublist (map_filterMap_sublist _ _ _
            (mkEntry_similarity geocode _ _) (results.zip (distances.map rawSim))))

/-- C4 witness: the order-preservation theorem at a concrete 3-row run
with distances [0, 1, 2] and all geocodes succeeding. -/
theorem C4_witness :
    (([(0 : ℚ), 1, 2].map rawSim).Pairwise (· ≥ ·)) ∧
    Event.table (([⟨"P0", "A0", "R0"⟩, ⟨"P1", "A1", "R1"⟩, ⟨"P2", "A2", "R2"⟩] :
        List Row).zip ([(0 : ℚ), 1, 2].map rawSim)) ∈
      mainTrace (.ok [1]) (fun _ _ => ([0, 1, 2], [0, 1, 2]))
        [⟨"P0", "A0", "R0"⟩, ⟨"P1", "A1", "R1"⟩, ⟨"P2", "A2", "R2"⟩]
        (fun _ => (some 1, some 1)) ∧
    ∀ locs, Event.mapHtml locs ∈
        mainTrace (.ok [1]) (fun _ _ => ([0, 1, 2], [0, 1, 2]))
          [⟨"P0", "A0", "R0"⟩, ⟨"P1", "A1", "R1"⟩, ⟨"P2", "A2", "R2"⟩]
          (fun _ => (some 1, some 1)) →
      (locs.map fun e => (e.name, e.address, e.review_text)).Sublist
        ((([⟨"P0", "A0", "R0"⟩, ⟨"P1", "A1", "R1"⟩, ⟨"P2", "A2", "R2"⟩] :
            List Row).zip ([(0 : ℚ), 1, 2].map rawSim)).map
          fun p => (p.1.name, p.1.address, p.1.review_text)) ∧
      (locs.map fun e => e.similarity).Pairwise optGE :=
  C4_order_thm [1] [0, 1, 2] [0, 1, 2]
    [⟨"P0", "A0", "R0"⟩, ⟨"P1", "A1", "R1"⟩, ⟨"P2", "A2", "R2"⟩]
    [⟨"P0", "A0", "R0"⟩, ⟨"P1", "A1", "R1"⟩, ⟨"P2", "A2", "R2"⟩]
    (fun _ => (some 1, some 1)) (by decide) (by decide)

/-- C8: whenever the embedding and the row lookup succeed, the ranked
table is displayed with content independent of the geocoder; and when
every geocode fails, the run ends with the warning instead of a map and
raises nothing — the request still shows the ranked list. -/
theorem C8_degrade_thm (emb : List ℚ)
    (searchFn : List ℚ → Nat → List ℚ × List Int)
    (metadata results : List Row) (geocode : Row → Option ℚ × Option ℚ)
    (hr : ilocAll metadata (searchFn emb 5).2 = some results)
    (hfail : ∀ r, geocode r = (none, none)) :
    (∀ g : Row → Option ℚ × Option ℚ,
      Event.table (results.zip ((searchFn emb 5).1.map rawSim)) ∈
        mainTrace (.ok emb) searchFn metadata g) ∧
    Event.mapWarning ∈ mainTrace (.ok emb) searchFn metadata geocode ∧
    (∀ locs, Event.mapHtml locs ∉ mainTrace (.ok emb) searchFn metadata geocode) ∧
    (∀ e, Event.raised e ∉ mainTrace (.ok emb) searchFn metadata geocode) := by
  have htrace : ∀ g : Row → Option ℚ × Option ℚ,
      mainTrace (.ok emb) searchFn metadata g =
      Event.searchCall emb 5 ::
      Event.table (results.zip ((searchFn emb 5).1.map rawSim)) ::
      (if (buildLocations (results.zip ((searchFn emb 5).1.map rawSim)) g
            ((seriesMin ((searchFn emb 5).1.map rawSim)).getD 0)
            ((seriesMax ((searchFn emb 5).1.map rawSim)).getD 0)).isEmpty
       then [Event.mapWarning]
       else [Event.mapHtml (buildLocations (results.zip ((searchFn emb 5).1.map rawSim)) g
            ((seriesMin ((searchFn emb 5).1.map rawSim)).getD 0)
            ((seriesMax ((searchFn emb 5).1.map rawSim)).getD 0))]) := by
    intro g
    simp [mainTrace, get_embedding, hr]
  have hnil : buildLocations (results.zip ((searchFn emb 5).1.map rawSim)) geocode
      ((seriesMin ((searchFn emb 5).1.map rawSim)).getD 0)
      ((seriesMax ((searchFn emb 5).1.map rawSim)).getD 0) = [] :=
    buildLocations_nil_of_fail _ _ _ _ hfail
  refine ⟨?_, ?_, ?_, ?_⟩
  · intro g
    rw [htrace g]
    by_cases hE : (buildLocations (results.zip ((searchFn emb 5).1.map rawSim)) g
        ((seriesMin ((searchFn emb 5).1.map rawSim)).getD 0)
        ((seriesMax ((searchFn emb 5).1.map rawSim)).getD 0)).isEmpty <;>
      simp [hE]
  · rw [htrace geocode, hnil]
    simp
  · intro locs
    rw [htrace geocode, hnil]
    simp
  · intro e
    rw [htrace geocode, hnil]
    simp

/-- C8 witness: the graceful-degradation theorem at a concrete run whose
geocoder always fails. -/
theorem C8_witness :
    (∀ g : Row → Option ℚ × Option ℚ,
      Event.table ((([⟨"P", "A", "R"⟩, ⟨"P", "A", "R"⟩] : List Row)).zip
          (((fun (_ : List ℚ) (_ : Nat) => (([0, 1] : List ℚ), ([0, 0] : List Int))) [1] 5).1.map rawSim)) ∈
        mainTrace (.ok [1]) (fun _ _ => ([0, 1], [0, 0])) [⟨"P", "A", "R"⟩] g) ∧
    Event.mapWarning ∈ mainTrace (.ok [1]) (fun _ _ => ([0, 1], [0, 0]))
      [⟨"P", "A", "R"⟩] (fun _ => (none, none)) ∧
    (∀ locs, Event.mapHtml locs ∉ mainTrace (.ok [1]) (fun _ _ => ([0, 1], [0, 0]))
      [⟨"P", "A", "R"⟩] (fun _ => (none, none))) ∧
    (∀ e, Event.raised e ∉ mainTrace (.ok [1]) (fun _ _ => ([0, 1], [0, 0]))
      [⟨"P", "A", "R"⟩] (fun _ => (none, none))) :=
  C8_degrade_thm [1] (fun _ _ => ([0, 1], [0, 0])) [⟨"P", "A", "R"⟩]
    [⟨"P", "A", "R"⟩, ⟨"P", "A", "R"⟩] (fun _ => (none, none))
    (by decide) (fun _ => rfl)
